import Mathlib

/-
Verification of the chat-room server's coordinator, room event loop and
client session (github.com/arturskrzydlo/chat-room).

Modelling conventions:
- Go maps are embedded as association lists `List (String × α)` with
  lookup/insert/erase mirroring Go map semantics; iteration order, which Go
  leaves unspecified, is fixed to insertion order here.
- Wall-clock timestamps (`time.Now().UTC().Format(time.RFC3339)`) are
  abstracted as an explicit `now : String` parameter threaded to the
  functions that read the clock.
- A session's outbound channel (`chan interface{}`) is identified by a
  numeric id; channel effects performed by the room loop (close, delivery
  attempt) are recorded in an effect log.  The 100 ms per-recipient
  delivery timeout of `handleBroadcast` is a real-time property; the
  embedding records the delivery attempt made to each snapshotted sink.
- Goroutine interleaving: every lock-protected section of the Go code is
  one atomic step.  Coordinator operations are modelled as functions on
  the whole state; the room goroutine's dequeue-and-handle is a separate
  step function, so schedules where the loop runs between two coordinator
  statements are modelled by explicit drain steps.
-/

namespace ChatRoom

/-! Association-list embedding of Go maps. -/

def lookupA {α : Type} (k : String) : List (String × α) → Option α
  | [] => none
  | kv :: t => if kv.1 = k then some kv.2 else lookupA k t

def insertA {α : Type} (k : String) (v : α) : List (String × α) → List (String × α)
  | [] => [(k, v)]
  | kv :: t => if kv.1 = k then (k, v) :: t else kv :: insertA k v t

def eraseA {α : Type} (k : String) : List (String × α) → List (String × α)
  | [] => []
  | kv :: t => if kv.1 = k then t else kv :: eraseA k t

def keysA {α : Type} : List (String × α) → List String
  | [] => []
  | kv :: t => kv.1 :: keysA t

/-! Outbound envelopes (internal/messages/websocket_schema.go). -/

def EventUserJoinedRoom : String := "user_joined"

def EventUserLeftRoom : String := "user_left"

def EventNewMessage : String := "new_message"

def EventNewRoom : String := "new_room"

structure UserJoinedEvent where
  type : String
  roomID : String
  userID : String
  userName : String
  messageTime : String
deriving DecidableEq

structure UserLeftEvent where
  type : String
  roomID : String
  userID : String
  userName : String
  messageTime : String
deriving DecidableEq

structure RoomMessageEvent where
  type : String
  roomID : String
  userID : String
  userName : String
  message : String
  messageTime : String
deriving DecidableEq

structure RoomCreateEvent where
  type : String
  roomID : String
  authorID : String
  roomName : String
deriving DecidableEq

def NewUserJoinedEvent (roomID userID userName now : String) : UserJoinedEvent :=
  { type := EventUserJoinedRoom, roomID := roomID, userID := userID,
    userName := userName, messageTime := now }

def NewUserLeftEvent (roomID userID userName now : String) : UserLeftEvent :=
  { type := EventUserLeftRoom, roomID := roomID, userID := userID,
    userName := userName, messageTime := now }

def NewRoomMessageEvent (roomID userID userName message now : String) : RoomMessageEvent :=
  { type := EventNewMessage, roomID := roomID, userID := userID,
    userName := userName, message := message, messageTime := now }

-- messages.NewRoom (renamed: the Lean name NewRoom is used for the Room
-- constructor models.NewRoom below).
def newRoomEnvelope (roomID authorID name : String) : RoomCreateEvent :=
  { type := EventNewRoom, roomID := roomID, roomName := name, authorID := authorID }

/-- The closed set of envelopes a room can broadcast or a coordinator can
write to a sink (Go passes them as interface values). -/
inductive OutMessage where
  | userJoined (e : UserJoinedEvent)
  | userLeft (e : UserLeftEvent)
  | roomMessage (e : RoomMessageEvent)
  | roomCreate (e : RoomCreateEvent)
deriving DecidableEq

/-! Room model (internal room.go, package coordinator / models). -/

structure User where
  id : String
  name : String
deriving DecidableEq

/-- A sink is a session's outbound channel, identified by a numeric id. -/
abbrev ChanId := Nat

structure RoomClient where
  userID : String
  user : User
  send : ChanId
deriving DecidableEq

inductive RoomEvent where
  | join (client : RoomClient)
  | leave (userID : String)
  | broadcast (msg : OutMessage)
  | close
deriving DecidableEq

/-- Room state owned by the room's event loop.  The Go struct also carries
`CreatedAt` (wall-clock, unused by any claim) and the event channel, which
the embedding keeps separately as the pending-event queue. -/
structure Room where
  id : String
  name : String
  authorID : String
  users : List (String × User)
  clients : List (String × ChanId)
deriving DecidableEq

def NewRoom (id name authorID : String) : Room :=
  { id := id, name := name, authorID := authorID, users := [], clients := [] }

/-- Channel effects performed by the room loop. -/
inductive ChanOp where
  | closeChan (ch : ChanId)
  | deliver (ch : ChanId) (msg : OutMessage)
deriving DecidableEq

def handleJoin (r : Room) (client : RoomClient) : Room :=
  { r with users := insertA client.userID client.user r.users,
           clients := insertA client.userID client.send r.clients }

def handleLeave (r : Room) (userID : String) : Room × List ChanOp :=
  match lookupA userID r.clients with
  | some send =>
      ({ r with users := eraseA userID r.users, clients := eraseA userID r.clients },
       [ChanOp.closeChan send])
  | none => ({ r with users := eraseA userID r.users }, [])

/-- Snapshot the sinks and attempt delivery to each.  The Go code skips a
recipient whose channel does not accept within 100 ms; the embedding
records the attempt made to each snapshotted sink. -/
def handleBroadcast (r : Room) (msg : OutMessage) : List ChanOp :=
  r.clients.map (fun kv => ChanOp.deliver kv.2 msg)

def cleanup (r : Room) : Room :=
  { r with users := [], clients := [] }

/-- One iteration of Room.Run: handle one event; the Bool is true when the
loop returns (Close), after which the deferred cleanup has run. -/
def roomStep (r : Room) (ev : RoomEvent) : Room × List ChanOp × Bool :=
  match ev with
  | RoomEvent.join c => (handleJoin r c, [], false)
  | RoomEvent.leave uid =>
      match handleLeave r uid with
      | (r1, ops) => (r1, ops, false)
  | RoomEvent.broadcast m => (r, handleBroadcast r m, false)
  | RoomEvent.close => (cleanup r, [], true)

/-- Run the loop over a list of queued events, stopping early on Close. -/
def runEvents (r : Room) : List RoomEvent → Room × List ChanOp × Bool
  | [] => (r, [], false)
  | ev :: rest =>
      match roomStep r ev with
      | (r1, ops, true) => (r1, ops, true)
      | (r1, ops, false) =>
          match runEvents r1 rest with
          | (r2, ops2, stop) => (r2, ops ++ ops2, stop)

/-- The sequence of room states observed after each processed event. -/
def roomTrace (r : Room) : List RoomEvent → List Room
  | [] => []
  | ev :: rest =>
      match roomStep r ev with
      | (r1, _, true) => [r1]
      | (r1, _, false) => r1 :: roomTrace r1 rest

/-! Coordinator model (internal/app/coordinator.go and room_store.go). -/

/-- Error return sites of the coordinator, one constructor per distinct
`fmt.Errorf` site (the Go message is noted on each). -/
inductive CoordErr where
  | invalidArgument   -- "room_id and room_name are required" / "user_id and user_name are required"
  | roomExists        -- "room with id ... already exists"
  | roomNotFound      -- "room ... not found"
  | alreadyMember     -- "user ... already in room"
  | notMember         -- "user ... not in room ..."
  | emptyContent      -- "message content cannot be empty"
  | contentTooLarge   -- "message exceeds 10KB limit"
deriving DecidableEq

def isErr {α : Type} : Except CoordErr α → Bool
  | Except.error _ => true
  | Except.ok _ => false

/-- A live room object: the loop-owned state, its pending event queue
(the buffered `events` channel), and whether the loop has returned. -/
structure RoomObj where
  room : Room
  queue : List RoomEvent
  stopped : Bool
deriving DecidableEq

/-- Coordinator state.  `store` is the roomStore registry.  A room object
deleted from the registry still exists on the Go heap until its loop sees
Close; such objects are kept in `detached`. -/
structure CoordState where
  store : List (String × RoomObj)
  detached : List RoomObj
deriving DecidableEq

def initialCoordState : CoordState := { store := [], detached := [] }

-- Room.GetUserCount: len(r.users) under RLock.
def GetUserCount (r : Room) : Nat := r.users.length

/-- Pending events of the registry room `roomID` (empty if absent). -/
def queueOf (s : CoordState) (roomID : String) : List RoomEvent :=
  match lookupA roomID s.store with
  | some obj => obj.queue
  | none => []

/-- The room goroutine dequeues and handles one event (no-op once the
loop has returned or the queue is empty). -/
def roomObjStep (o : RoomObj) : RoomObj × List ChanOp :=
  if o.stopped then (o, [])
  else
    match o.queue with
    | [] => (o, [])
    | ev :: rest =>
        match roomStep o.room ev with
        | (r1, ops, stop) => ({ room := r1, queue := rest, stopped := stop }, ops)

def roomObjSteps (o : RoomObj) : Nat → RoomObj × List ChanOp
  | 0 => (o, [])
  | k + 1 =>
      match roomObjStep o with
      | (o1, ops) =>
          match roomObjSteps o1 k with
          | (o2, ops2) => (o2, ops ++ ops2)

/-- Schedule `k` steps of the room goroutine of registry room `roomID`. -/
def drainRoom (s : CoordState) (roomID : String) (k : Nat) : CoordState × List ChanOp :=
  match lookupA roomID s.store with
  | none => (s, [])
  | some o =>
      match roomObjSteps o k with
      | (o1, ops) => ({ s with store := insertA roomID o1 s.store }, ops)

/-- Coordinator.CreateRoom.  Returns the error result, the new state and
the envelopes written directly to the author's sink (`send <- ...`). -/
def CreateRoom (s : CoordState) (roomID authorID roomName : String)
    (send : ChanId) (_now : String) :
    Except CoordErr Unit × CoordState × List OutMessage :=
  if roomID = "" ∨ roomName = "" then
    (Except.error CoordErr.invalidArgument, s, [])
  else
    match lookupA roomID s.store with
    | some _ => (Except.error CoordErr.roomExists, s, [])
    | none =>
        -- models.NewRoom, store, go room.Run() (fresh empty queue),
        -- auto-join of the author, then the direct new_room write.
        let room := NewRoom roomID roomName authorID
        let authorUser : User := { id := authorID, name := authorID }
        let roomClient : RoomClient := { userID := authorID, user := authorUser, send := send }
        let obj : RoomObj := { room := room, queue := [RoomEvent.join roomClient], stopped := false }
        (Except.ok (), { s with store := insertA roomID obj s.store },
         [OutMessage.roomCreate (newRoomEnvelope roomID authorID roomName)])
  -- `_now` is unused: the created room's CreatedAt timestamp is not
  -- observed by any claim.

-- Coordinator.GetRoom is roomStore.Load, i.e. lookupA roomID s.store.

def JoinRoom (s : CoordState) (roomID userID userName : String)
    (send : ChanId) (now : String) :
    Except CoordErr Unit × CoordState :=
  match lookupA roomID s.store with
  | none => (Except.error CoordErr.roomNotFound, s)
  | some obj =>
      if userID = "" ∨ userName = "" then
        (Except.error CoordErr.invalidArgument, s)
      else
        -- room.GetUsers() snapshot of the loop-owned member table
        match lookupA userID obj.room.users with
        | some _ => (Except.error CoordErr.alreadyMember, s)
        | none =>
            let user : User := { id := userID, name := userName }
            let client : RoomClient := { userID := userID, user := user, send := send }
            let obj1 := { obj with queue := obj.queue
              ++ [RoomEvent.join client,
                  RoomEvent.broadcast (OutMessage.userJoined
                    (NewUserJoinedEvent roomID userID userName now))] }
            (Except.ok (), { s with store := insertA roomID obj1 s.store })

def deleteRoomIfEmpty (s : CoordState) (roomID : String) : CoordState :=
  match lookupA roomID s.store with
  | none => s
  | some obj =>
      if GetUserCount obj.room = 0 then
        { store := eraseA roomID s.store,
          detached := s.detached ++ [{ obj with queue := obj.queue ++ [RoomEvent.close] }] }
      else s

def LeaveRoom (s : CoordState) (roomID userID : String) (now : String) :
    Except CoordErr Unit × CoordState :=
  match lookupA roomID s.store with
  | none => (Except.error CoordErr.roomNotFound, s)
  | some obj =>
      match lookupA userID obj.room.users with
      | none => (Except.error CoordErr.notMember, s)
      | some user =>
          let obj1 := { obj with queue := obj.queue
            ++ [RoomEvent.leave userID,
                RoomEvent.broadcast (OutMessage.userLeft
                  (NewUserLeftEvent roomID userID user.name now))] }
          let s1 := { s with store := insertA roomID obj1 s.store }
          (Except.ok (), deleteRoomIfEmpty s1 roomID)

/-- LeaveRoom under the schedule in which the room goroutine dequeues `k`
pending events between the coordinator's two enqueues and its
`deleteRoomIfEmpty` check.  `k = 0` is the fully synchronous schedule,
identical to `LeaveRoom`. -/
def leaveRoomSched (s : CoordState) (roomID userID : String) (now : String)
    (k : Nat) : Except CoordErr Unit × CoordState :=
  match lookupA roomID s.store with
  | none => (Except.error CoordErr.roomNotFound, s)
  | some obj =>
      match lookupA userID obj.room.users with
      | none => (Except.error CoordErr.notMember, s)
      | some user =>
          let obj1 := { obj with queue := obj.queue
            ++ [RoomEvent.leave userID,
                RoomEvent.broadcast (OutMessage.userLeft
                  (NewUserLeftEvent roomID userID user.name now))] }
          let s1 := { s with store := insertA roomID obj1 s.store }
          let s2 := (drainRoom s1 roomID k).1
          (Except.ok (), deleteRoomIfEmpty s2 roomID)

def SendMessage (s : CoordState) (roomID userID content : String)
    (now : String) : Except CoordErr Unit × CoordState :=
  if content = "" then (Except.error CoordErr.emptyContent, s)
  else if content.utf8ByteSize > 10 * 1024 then
    (Except.error CoordErr.contentTooLarge, s)
  else
    match lookupA roomID s.store with
    | none => (Except.error CoordErr.roomNotFound, s)
    | some obj =>
        match lookupA userID obj.room.users with
        | none => (Except.error CoordErr.notMember, s)
        | some user =>
            let obj1 := { obj with queue := obj.queue
              ++ [RoomEvent.broadcast (OutMessage.roomMessage
                   (NewRoomMessageEvent roomID userID user.name content now))] }
            (Except.ok (), { s with store := insertA roomID obj1 s.store })

/-! Client session model (internal/server/server.go). -/

/-- Per-connection session state: the single tracked room id and the
bound identity, plus the id of the session's outbound channel. -/
structure Client where
  roomID : String
  userID : String
  userName : String
  send : ChanId
deriving DecidableEq

structure JoinRoomPayload where
  roomID : String
  userID : String
  userName : String
deriving DecidableEq

structure LeaveRoomPayload where
  roomID : String
deriving DecidableEq

/-- Envelopes the session handlers themselves write to the outbound sink
(sendError, the join_success map literal). -/
inductive ServerOut where
  | errorOut (code : String) (e : CoordErr)     -- sendError with a coordinator error
  | errorText (code message : String)           -- sendError with a literal message
  | joinSuccess (roomID userID : String)
deriving DecidableEq

def ensureIdentity (c : Client) (userID userName : String) :
    Except String Client :=
  if c.userID = "" then
    Except.ok { c with userID := userID, userName := userName }
  else if c.userID ≠ userID then
    -- "connection already bound to user ..."
    Except.error ("connection already bound to user " ++ c.userID)
  else
    Except.ok c

/-- A session together with the coordinator it talks to and the log of
envelopes its handlers wrote to its own sink. -/
structure ClientSys where
  client : Client
  coord : CoordState
  out : List ServerOut
deriving DecidableEq

def handleJoinRoom (sys : ClientSys) (p : JoinRoomPayload) (now : String) :
    ClientSys :=
  let c := sys.client
  let userID := if p.userID = "" then c.userID else p.userID
  let userName := if p.userName = "" then c.userName else p.userName
  match ensureIdentity c userID userName with
  | Except.error _ =>
      { sys with out := sys.out ++ [ServerOut.errorText "identity_error" "identity conflict"] }
  | Except.ok c1 =>
      match JoinRoom sys.coord p.roomID c1.userID c1.userName c1.send now with
      | (Except.error e, coord1) =>
          { client := c1, coord := coord1,
            out := sys.out ++ [ServerOut.errorOut "join_room_error" e] }
      | (Except.ok _, coord1) =>
          { client := { c1 with roomID := p.roomID }, coord := coord1,
            out := sys.out ++ [ServerOut.joinSuccess p.roomID c1.userID] }

def handleLeaveRoom (sys : ClientSys) (p : LeaveRoomPayload) (now : String) :
    ClientSys :=
  let c := sys.client
  if p.roomID ≠ c.roomID then
    { sys with out := sys.out ++ [ServerOut.errorText "leave_room_error" "user not in this room"] }
  else
    match LeaveRoom sys.coord p.roomID c.userID now with
    | (Except.error e, coord1) =>
        { client := c, coord := coord1,
          out := sys.out ++ [ServerOut.errorOut "leave_room_error" e] }
    | (Except.ok _, coord1) =>
        -- on success the session clears its room id AND its bound identity
        { client := { c with roomID := "", userID := "", userName := "" },
          coord := coord1, out := sys.out }

/-! Helper functions for the safety analysis of channel closes. -/

def chanVals : List (String × ChanId) → List ChanId
  | [] => []
  | kv :: t => kv.2 :: chanVals t

def joinChans : List RoomEvent → List ChanId
  | [] => []
  | RoomEvent.join c :: t => c.send :: joinChans t
  | _ :: t => joinChans t

def closedChans : List ChanOp → List ChanId
  | [] => []
  | ChanOp.closeChan ch :: t => ch :: closedChans t
  | _ :: t => closedChans t

def eraseK (k : String) : List String → List String
  | [] => []
  | a :: t => if a = k then t else a :: eraseK k t

/-! Concrete executions used below.

A coordinator whose registry holds room_1 with its creator as the sole
processed member: CreateRoom followed by one step of the room goroutine
(which applies the author's auto-join). -/

def c1State : CoordState :=
  (drainRoom (CreateRoom initialCoordState "room_1" "u1" "Room One" 3 "t0").2.1
    "room_1" 1).1

/-- The room stored for room_1 in `c1State`, after the auto-join. -/
def c1Room : Room :=
  { id := "room_1", name := "Room One", authorID := "u1",
    users := [("u1", { id := "u1", name := "u1" })], clients := [("u1", 3)] }

/-- The room object stored for room_1 in `c1State`. -/
def c1Obj : RoomObj := { room := c1Room, queue := [], stopped := false }

/-- A coordinator whose registry holds room_1 created by u9, with u9 the
sole processed member. -/
def c2Coord0 : CoordState :=
  (drainRoom (CreateRoom initialCoordState "room_1" "u9" "Room One" 9 "t0").2.1
    "room_1" 1).1

/-- A fresh, unbound session talking to that coordinator. -/
def c2Sys0 : ClientSys :=
  { client := { roomID := "", userID := "", userName := "", send := 1 },
    coord := c2Coord0, out := [] }

/-- The session joins room_1 as u1 (binding its identity to u1). -/
def c2Sys1 : ClientSys :=
  handleJoinRoom c2Sys0 { roomID := "room_1", userID := "u1", userName := "U1" } "t1"

/-- The room goroutine processes the enqueued Join and user_joined. -/
def c2Sys2 : ClientSys :=
  { c2Sys1 with coord := (drainRoom c2Sys1.coord "room_1" 2).1 }

/-- The session leaves room_1 (successfully). -/
def c2Sys3 : ClientSys := handleLeaveRoom c2Sys2 { roomID := "room_1" } "t2"

/-- The session then joins room_1 again, now as u2. -/
def c2Sys4 : ClientSys :=
  handleJoinRoom c2Sys3 { roomID := "room_1", userID := "u2", userName := "U2" } "t3"

/-- A room whose only member u holds sink channel 7. -/
def c8Room : Room :=
  (runEvents (NewRoom "r" "n" "a")
    [RoomEvent.join { userID := "u", user := { id := "u", name := "U" }, send := 7 }]).1

/-- A room holding the single member v with sink channel 4. -/
def c9Room : Room :=
  { id := "r", name := "n", authorID := "a",
    users := [("v", { id := "v", name := "V" })], clients := [("v", 4)] }

/-- A Join of v carrying sink channel 4. -/
def c9JoinEv : RoomEvent :=
  RoomEvent.join { userID := "v", user := { id := "v", name := "V" }, send := 4 }

/-- Join, leave, re-join with the same sink channel, leave again. -/
def c9Events : List RoomEvent :=
  [RoomEvent.join { userID := "u", user := { id := "u", name := "U" }, send := 5 },
   RoomEvent.leave "u",
   RoomEvent.join { userID := "u", user := { id := "u", name := "U" }, send := 5 },
   RoomEvent.leave "u"]

/-! Association-list lemmas. -/

theorem lookupA_insertA_self {α : Type} (k : String) (v : α)
    (l : List (String × α)) : lookupA k (insertA k v l) = some v := by
  induction l with
  | nil => simp [insertA, lookupA]
  | cons kv t ih =>
      by_cases h : kv.1 = k
      · simp [insertA, h, lookupA]
      · simp [insertA, h, lookupA, ih]

theorem lookupA_none_iff {α : Type} (k : String) (l : List (String × α)) :
    lookupA k l = none ↔ k ∉ keysA l := by
  induction l with
  | nil => simp [lookupA, keysA]
  | cons kv t ih =>
      by_cases h : kv.1 = k
      · simp [lookupA, h, keysA]
      · simp [lookupA, h, keysA, ih]
        intro hk
        exact fun hkk => h hkk.symm

theorem eraseA_of_lookupA_none {α : Type} (k : String) (l : List (String × α))
    (h : lookupA k l = none) : eraseA k l = l := by
  induction l with
  | nil => simp [eraseA]
  | cons kv t ih =>
      by_cases hk : kv.1 = k
      · simp [lookupA, hk] at h
      · simp [lookupA, hk] at h
        simp [eraseA, hk, ih h]

theorem keysA_insertA {α : Type} (k : String) (v : α) (l : List (String × α)) :
    keysA (insertA k v l) =
      if k ∈ keysA l then keysA l else keysA l ++ [k] := by
  induction l with
  | nil => simp [insertA, keysA]
  | cons kv t ih =>
      by_cases h : kv.1 = k
      · simp [insertA, h, keysA]
      · have hne : ¬ k = kv.1 := fun hk => h hk.symm
        by_cases hmem : k ∈ keysA t
        · simp [insertA, h, keysA, ih, hmem, hne]
        · simp [insertA, h, keysA, ih, hmem, hne]

theorem keysA_eraseA {α : Type} (k : String) (l : List (String × α)) :
    keysA (eraseA k l) = eraseK k (keysA l) := by
  induction l with
  | nil => simp [eraseA, keysA, eraseK]
  | cons kv t ih =>
      by_cases h : kv.1 = k
      · simp [eraseA, h, keysA, eraseK]
      · simp [eraseA, h, keysA, eraseK, ih]

theorem lookupA_some_length_pos {α : Type} (k : String) (v : α)
    (l : List (String × α)) (h : lookupA k l = some v) : 0 < l.length := by
  cases l with
  | nil => simp [lookupA] at h
  | cons kv t => simp

/-! Room invariant R1: the member table and the sink table always hold the
same keys, because the loop mutates them in lockstep. -/

theorem roomStep_preserves_keys (r : Room) (ev : RoomEvent)
    (h : keysA r.users = keysA r.clients) :
    keysA (roomStep r ev).1.users = keysA (roomStep r ev).1.clients := by
  cases ev with
  | join c => simp [roomStep, handleJoin, keysA_insertA, h]
  | leave uid =>
      cases hc : lookupA uid r.clients with
      | some ch => simp [roomStep, handleLeave, hc, keysA_eraseA, h]
      | none =>
          have hu : lookupA uid r.users = none := by
            rw [lookupA_none_iff] at hc ⊢
            rw [h]; exact hc
          simp [roomStep, handleLeave, hc, eraseA_of_lookupA_none _ _ hu, h]
  | broadcast m => simp [roomStep, h]
  | close => simp [roomStep, cleanup, keysA]

theorem roomTrace_keys (evs : List RoomEvent) (r : Room)
    (h : keysA r.users = keysA r.clients) :
    ∀ s ∈ roomTrace r evs, keysA s.users = keysA s.clients := by
  induction evs generalizing r with
  | nil => simp [roomTrace]
  | cons ev rest ih =>
      intro s hs
      have hstep := roomStep_preserves_keys r ev h
      rcases hq : roomStep r ev with ⟨r1, ops, stop⟩
      rw [hq] at hstep
      cases stop with
      | true =>
          simp only [roomTrace, hq, List.mem_singleton] at hs
          subst hs; exact hstep
      | false =>
          simp only [roomTrace, hq, List.mem_cons] at hs
          cases hs with
          | inl hs => subst hs; exact hstep
          | inr hs => exact ih r1 hstep s hs

/-! Counting channel closes performed by the event loop. -/

theorem closedChans_append (a b : List ChanOp) :
    closedChans (a ++ b) = closedChans a ++ closedChans b := by
  induction a with
  | nil => rfl
  | cons op t ih => cases op <;> simp [closedChans, ih]

theorem closedChans_map_deliver (l : List (String × ChanId)) (m : OutMessage) :
    closedChans (l.map (fun kv => ChanOp.deliver kv.2 m)) = [] := by
  induction l with
  | nil => rfl
  | cons kv t ih => simp [closedChans, ih]

theorem count_chanVals_insertA (k : String) (v : ChanId)
    (l : List (String × ChanId)) (ch : ChanId) :
    (chanVals (insertA k v l)).count ch
      ≤ (chanVals l).count ch + (if v = ch then 1 else 0) := by
  induction l with
  | nil =>
      simp only [insertA, chanVals, List.count_cons, List.count_nil, beq_iff_eq]
      split_ifs <;> omega
  | cons kv t ih =>
      by_cases h : kv.1 = k
      · simp only [insertA, if_pos h, chanVals, List.count_cons, beq_iff_eq]
        split_ifs <;> omega
      · simp only [insertA, if_neg h, chanVals, List.count_cons, beq_iff_eq]
        have hih := ih
        split_ifs at hih ⊢ <;> omega

theorem count_chanVals_eraseA (k : String) (ch0 : ChanId)
    (l : List (String × ChanId)) (h : lookupA k l = some ch0) (ch : ChanId) :
    (chanVals l).count ch
      = (chanVals (eraseA k l)).count ch + (if ch0 = ch then 1 else 0) := by
  induction l with
  | nil => simp [lookupA] at h
  | cons kv t ih =>
      by_cases hk : kv.1 = k
      · simp only [lookupA, if_pos hk, Option.some.injEq] at h
        subst h
        simp only [eraseA, if_pos hk, chanVals, List.count_cons, beq_iff_eq]
      · simp only [lookupA, if_neg hk] at h
        simp only [eraseA, if_neg hk, chanVals, List.count_cons, beq_iff_eq]
        rw [ih h]
        split_ifs <;> omega

theorem runEvents_cons_go (r : Room) (ev : RoomEvent) (rest : List RoomEvent)
    (h : (roomStep r ev).2.2 = false) :
    runEvents r (ev :: rest)
      = ((runEvents (roomStep r ev).1 rest).1,
         (roomStep r ev).2.1 ++ (runEvents (roomStep r ev).1 rest).2.1,
         (runEvents (roomStep r ev).1 rest).2.2) := by
  rcases hs : roomStep r ev with ⟨r1, ops, stop⟩
  rw [hs] at h
  dsimp only at h
  subst h
  rcases hr : runEvents r1 rest with ⟨r2, ops2, stop2⟩
  simp only [runEvents, hs, hr]

theorem runEvents_close_count (evs : List RoomEvent) (r : Room) (ch : ChanId) :
    (closedChans (runEvents r evs).2.1).count ch
        + (chanVals (runEvents r evs).1.clients).count ch
      ≤ (chanVals r.clients).count ch + (joinChans evs).count ch := by
  induction evs generalizing r with
  | nil => simp [runEvents, closedChans, joinChans]
  | cons ev rest ih =>
      cases ev with
      | join c =>
          rw [runEvents_cons_go r (RoomEvent.join c) rest rfl]
          dsimp only [roomStep]
          simp only [List.nil_append, joinChans, List.count_cons, beq_iff_eq]
          have h1 := ih (handleJoin r c)
          have h2 : (chanVals (handleJoin r c).clients).count ch
              ≤ (chanVals r.clients).count ch + (if c.send = ch then 1 else 0) :=
            count_chanVals_insertA c.userID c.send r.clients ch
          split_ifs at h2 ⊢ <;> omega
      | leave uid =>
          cases hc : lookupA uid r.clients with
          | some ch0 =>
              have hstep : roomStep r (RoomEvent.leave uid) = ({ r with users := eraseA uid r.users, clients := eraseA uid r.clients }, [ChanOp.closeChan ch0], false) := by
                simp [roomStep, handleLeave, hc]
              rw [runEvents_cons_go r (RoomEvent.leave uid) rest (by rw [hstep])]
              rw [hstep]
              dsimp only
              simp only [List.cons_append, List.append_eq, List.nil_append, joinChans,
                closedChans, List.count_cons, beq_iff_eq]
              have h1 : (closedChans (runEvents { r with users := eraseA uid r.users, clients := eraseA uid r.clients } rest).2.1).count ch + (chanVals (runEvents { r with users := eraseA uid r.users, clients := eraseA uid r.clients } rest).1.clients).count ch ≤ (chanVals (eraseA uid r.clients)).count ch + (joinChans rest).count ch :=
                ih { r with users := eraseA uid r.users, clients := eraseA uid r.clients }
              have hE := count_chanVals_eraseA uid ch0 r.clients hc ch
              split_ifs at hE ⊢ <;> omega
          | none =>
              have hstep : roomStep r (RoomEvent.leave uid) = ({ r with users := eraseA uid r.users }, [], false) := by
                simp [roomStep, handleLeave, hc]
              rw [runEvents_cons_go r (RoomEvent.leave uid) rest (by rw [hstep])]
              rw [hstep]
              dsimp only
              simp only [List.nil_append, joinChans]
              exact ih { r with users := eraseA uid r.users }
      | broadcast m =>
          rw [runEvents_cons_go r (RoomEvent.broadcast m) rest rfl]
          dsimp only [roomStep]
          simp only [closedChans_append, List.count_append, joinChans,
            handleBroadcast, closedChans_map_deliver, List.count_nil]
          have h1 := ih r
          omega
      | close =>
          simp [runEvents, roomStep, cleanup, closedChans, chanVals]

/-! The claims. -/

/-- Claim C1 (refuted by the code as scheduled): when the sole member u1
of room_1 leaves, LeaveRoom succeeds, yet under the synchronous schedule
(the room goroutine not running between the enqueue of Leave and the
emptiness check) the registry still contains room_1, no room object was
detached and no Close event was enqueued, so the room leaks; only when
the loop processes the Leave first (one drain step) is the room removed
and Close enqueued. -/
theorem coordinator_lastLeave_room_leak :
    isErr (LeaveRoom c1State "room_1" "u1" "t1").1 = false
    ∧ (lookupA "room_1" (LeaveRoom c1State "room_1" "u1" "t1").2.store).isSome = true
    ∧ (LeaveRoom c1State "room_1" "u1" "t1").2.detached = []
    ∧ RoomEvent.close ∉ queueOf (LeaveRoom c1State "room_1" "u1" "t1").2 "room_1"
    ∧ isErr (leaveRoomSched c1State "room_1" "u1" "t1" 1).1 = false
    ∧ lookupA "room_1" (leaveRoomSched c1State "room_1" "u1" "t1" 1).2.store = none
    ∧ (∃ o ∈ (leaveRoomSched c1State "room_1" "u1" "t1" 1).2.detached,
        RoomEvent.close ∈ o.queue) := by
  decide

/-- Claim C2 (refuted by the code): a successful leave clears the
session's bound identity, after which a join with a different non-empty
user id succeeds instead of failing with identity_error — the session
binds u1, leaves, then binds u2, and both join_success acknowledgements
are emitted. -/
theorem client_leave_unbinds_identity :
    c2Sys1.client.userID = "u1"
    ∧ c2Sys3.client.userID = "" ∧ c2Sys3.client.userName = ""
    ∧ c2Sys4.client.userID = "u2"
    ∧ c2Sys4.out = [ServerOut.joinSuccess "room_1" "u1",
        ServerOut.joinSuccess "room_1" "u2"] := by
  decide

/-- Claim C8 (amended): processing Close clears the members and sinks
maps and returns from the loop; the Room performs no channel operation,
so the sinks attached at that moment are not closed by the Room. -/
theorem room_close_clears_and_returns (r : Room) :
    runEvents r [RoomEvent.close] = (cleanup r, [], true)
    ∧ (cleanup r).users = [] ∧ (cleanup r).clients = [] :=
  ⟨rfl, rfl, rfl⟩

/-- Claim C8 counterexample: a room with sink channel 7 attached
processes Close and performs no channel operation at all — in particular
channel 7 is never closed, refuting that every attached sink has been
closed. -/
theorem room_close_leaves_sink_open :
    lookupA "u" c8Room.clients = some 7
    ∧ (runEvents c8Room [RoomEvent.close]).2.1 = [] := by
  decide

/-- Claim C9 (amended): a Leave for a user who is not a member leaves the
room state unchanged and closes no channel (given invariant R1, which
holds in every reachable room state); and over any event sequence from a
fresh room in which a given channel appears in at most one Join, that
channel is closed at most once. -/
theorem room_leave_nonmember_noop_and_single_close :
    (∀ (r : Room) (uid : String), keysA r.users = keysA r.clients →
      lookupA uid r.users = none →
      roomStep r (RoomEvent.leave uid) = (r, [], false))
    ∧ (∀ (id name authorID : String) (evs : List RoomEvent) (ch : ChanId),
        (joinChans evs).count ch ≤ 1 →
        (closedChans (runEvents (NewRoom id name authorID) evs).2.1).count ch ≤ 1) := by
  constructor
  · intro r uid hkeys hu
    have hc : lookupA uid r.clients = none := by
      rw [lookupA_none_iff] at hu ⊢
      rw [← hkeys]; exact hu
    simp [roomStep, handleLeave, hc, eraseA_of_lookupA_none uid r.users hu]
  · intro id name authorID evs ch hjoin
    have h := runEvents_close_count evs (NewRoom id name authorID) ch
    have h0 : (chanVals (NewRoom id name authorID).clients).count ch = 0 := rfl
    omega

/-- Claim C9 witness: the no-op part at a room with member v and
non-member w, and the at-most-once part on a single join of channel 4. -/
theorem room_leave_nonmember_noop_and_single_close_witness :
    keysA c9Room.users = keysA c9Room.clients
    ∧ lookupA "w" c9Room.users = none
    ∧ roomStep c9Room (RoomEvent.leave "w") = (c9Room, [], false)
    ∧ (joinChans [c9JoinEv]).count 4 ≤ 1
    ∧ (closedChans (runEvents (NewRoom "r" "n" "a") [c9JoinEv]).2.1).count 4 ≤ 1 :=
  ⟨by decide, by decide,
   room_leave_nonmember_noop_and_single_close.1 c9Room "w" (by decide) (by decide),
   by decide,
   room_leave_nonmember_noop_and_single_close.2 "r" "n" "a" [c9JoinEv] 4 (by decide)⟩

/-- Claim C9 counterexample: joining, leaving, re-joining with the same
sink channel 5 and leaving again makes the loop close channel 5 twice,
refuting that over any event sequence each sink channel is closed at most
once. -/
theorem room_channel_closed_twice :
    ¬ (closedChans (runEvents (NewRoom "r" "n" "a") c9Events).2.1).count 5 ≤ 1 := by
  decide

/-- Claim C3: every successful JoinRoom appends to the room's event queue
first a Join of the new client and then a broadcast of a user_joined
envelope carrying the room id, user id, user name and a message time. -/
theorem coordinator_joinRoom_enqueues_join_then_user_joined
    (s : CoordState) (roomID userID userName : String) (send : ChanId)
    (now : String) (obj : RoomObj)
    (hobj : lookupA roomID s.store = some obj)
    (hok : (JoinRoom s roomID userID userName send now).1 = Except.ok ()) :
    (JoinRoom s roomID userID userName send now).2.store
      = insertA roomID { obj with queue := obj.queue ++ [RoomEvent.join { userID := userID, user := { id := userID, name := userName }, send := send }, RoomEvent.broadcast (OutMessage.userJoined (NewUserJoinedEvent roomID userID userName now))] } s.store
    ∧ (NewUserJoinedEvent roomID userID userName now).type = "user_joined"
    ∧ (NewUserJoinedEvent roomID userID userName now).roomID = roomID
    ∧ (NewUserJoinedEvent roomID userID userName now).userID = userID
    ∧ (NewUserJoinedEvent roomID userID userName now).userName = userName
    ∧ (NewUserJoinedEvent roomID userID userName now).messageTime = now := by
  refine ⟨?_, rfl, rfl, rfl, rfl, rfl⟩
  simp only [JoinRoom, hobj] at hok ⊢
  by_cases hemp : userID = "" ∨ userName = ""
  · rw [if_pos hemp] at hok
    simp at hok
  · rw [if_neg hemp] at hok ⊢
    cases hmem : lookupA userID obj.room.users with
    | some u =>
        rw [hmem] at hok
        simp at hok
    | none => exact rfl

/-- Claim C3 witness: joining u2 into the room_1 of c1State. -/
theorem coordinator_joinRoom_enqueues_witness :
    lookupA "room_1" c1State.store = some c1Obj
    ∧ isErr (JoinRoom c1State "room_1" "u2" "U2" 8 "t1").1 = false
    ∧ ((JoinRoom c1State "room_1" "u2" "U2" 8 "t1").2.store
      = insertA "room_1" { c1Obj with queue := c1Obj.queue ++ [RoomEvent.join { userID := "u2", user := { id := "u2", name := "U2" }, send := 8 }, RoomEvent.broadcast (OutMessage.userJoined (NewUserJoinedEvent "room_1" "u2" "U2" "t1"))] } c1State.store
    ∧ (NewUserJoinedEvent "room_1" "u2" "U2" "t1").type = "user_joined"
    ∧ (NewUserJoinedEvent "room_1" "u2" "U2" "t1").roomID = "room_1"
    ∧ (NewUserJoinedEvent "room_1" "u2" "U2" "t1").userID = "u2"
    ∧ (NewUserJoinedEvent "room_1" "u2" "U2" "t1").userName = "U2"
    ∧ (NewUserJoinedEvent "room_1" "u2" "U2" "t1").messageTime = "t1") :=
  ⟨by decide, by decide,
   coordinator_joinRoom_enqueues_join_then_user_joined c1State "room_1" "u2" "U2"
     8 "t1" c1Obj (by decide) (by rfl)⟩

/-- Claim C4: for every room and every sequence of Join, Leave, Broadcast
and Close events applied by its event loop, after each event the set of
user ids in the members map equals the set of keys in the sinks map. -/
theorem room_members_match_sinks (id name authorID : String)
    (evs : List RoomEvent) (s : Room)
    (hs : s ∈ roomTrace (NewRoom id name authorID) evs) :
    keysA s.users = keysA s.clients :=
  roomTrace_keys evs (NewRoom id name authorID) rfl s hs

/-- Claim C4 witness: the state reached after one Join. -/
theorem room_members_match_sinks_witness :
    (runEvents (NewRoom "r" "n" "a") [c9JoinEv]).1
        ∈ roomTrace (NewRoom "r" "n" "a") [c9JoinEv]
    ∧ keysA (runEvents (NewRoom "r" "n" "a") [c9JoinEv]).1.users
        = keysA (runEvents (NewRoom "r" "n" "a") [c9JoinEv]).1.clients :=
  ⟨by decide, room_members_match_sinks "r" "n" "a" [c9JoinEv] _ (by decide)⟩

/-- Claim C5: SendMessage returns an error exactly when the content is
empty, the content exceeds 10240 bytes, the room is absent from the
registry, or the user is not in the room's current member table;
otherwise it enqueues a new_message broadcast whose user name is looked
up from the room's current member table. -/
theorem coordinator_sendMessage_spec (s : CoordState)
    (roomID userID content now : String) :
    (isErr (SendMessage s roomID userID content now).1 = true ↔
      content = "" ∨ content.utf8ByteSize > 10 * 1024
        ∨ lookupA roomID s.store = none
        ∨ (∃ obj, lookupA roomID s.store = some obj
            ∧ lookupA userID obj.room.users = none))
    ∧ (∀ (obj : RoomObj) (user : User), lookupA roomID s.store = some obj →
        lookupA userID obj.room.users = some user → content ≠ "" →
        content.utf8ByteSize ≤ 10 * 1024 →
        (SendMessage s roomID userID content now).2.store
          = insertA roomID { obj with queue := obj.queue ++ [RoomEvent.broadcast (OutMessage.roomMessage (NewRoomMessageEvent roomID userID user.name content now))] } s.store) := by
  constructor
  · unfold SendMessage
    by_cases h1 : content = ""
    · simp [h1, isErr]
    · rw [if_neg h1]
      by_cases h2 : content.utf8ByteSize > 10 * 1024
      · simp [h1, h2, isErr]
      · rw [if_neg h2]
        cases hl : lookupA roomID s.store with
        | none => simp [h1, h2, hl, isErr]
        | some obj =>
            cases hm : lookupA userID obj.room.users with
            | none => simp [h1, h2, hl, hm, isErr]
            | some u => simp [h1, h2, hl, hm, isErr]
  · intro obj user hobj huser hc hsz
    have h2 : ¬ content.utf8ByteSize > 10 * 1024 := by omega
    simp [SendMessage, hobj, huser, hc, h2]

/-- Claim C5 witness: u1 sends a short message in room_1. -/
theorem coordinator_sendMessage_witness :
    lookupA "room_1" c1State.store = some c1Obj
    ∧ lookupA "u1" c1Obj.room.users = some { id := "u1", name := "u1" }
    ∧ "hi" ≠ "" ∧ String.utf8ByteSize "hi" ≤ 10 * 1024
    ∧ (SendMessage c1State "room_1" "u1" "hi" "t1").2.store
        = insertA "room_1" { c1Obj with queue := c1Obj.queue ++ [RoomEvent.broadcast (OutMessage.roomMessage (NewRoomMessageEvent "room_1" "u1" "u1" "hi" "t1"))] } c1State.store :=
  ⟨by decide, by decide, by decide, by decide,
   (coordinator_sendMessage_spec c1State "room_1" "u1" "hi" "t1").2 c1Obj
     { id := "u1", name := "u1" } (by decide) (by decide) (by decide) (by decide)⟩

/-- Claim C6: CreateRoom fails exactly when the room id or the room name
is empty (invalid_argument) or the room id is already registered
(room_exists), and on every failure the whole coordinator state is
unchanged (registry and all room queues) and nothing is written to the
author's sink. -/
theorem coordinator_createRoom_failure_spec (s : CoordState)
    (roomID authorID roomName : String) (send : ChanId) (now : String) :
    (isErr (CreateRoom s roomID authorID roomName send now).1 = true ↔
      roomID = "" ∨ roomName = "" ∨ (lookupA roomID s.store).isSome = true)
    ∧ ((roomID = "" ∨ roomName = "") →
        (CreateRoom s roomID authorID roomName send now).1
          = Except.error CoordErr.invalidArgument)
    ∧ (¬ (roomID = "" ∨ roomName = "") → (lookupA roomID s.store).isSome = true →
        (CreateRoom s roomID authorID roomName send now).1
          = Except.error CoordErr.roomExists)
    ∧ (isErr (CreateRoom s roomID authorID roomName send now).1 = true →
        (CreateRoom s roomID authorID roomName send now).2 = (s, [])) := by
  unfold CreateRoom
  by_cases hemp : roomID = "" ∨ roomName = ""
  · rw [if_pos hemp]
    refine ⟨⟨fun _ => ?_, fun _ => rfl⟩, fun _ => rfl,
      fun hno _ => absurd hemp hno, fun _ => rfl⟩
    rcases hemp with h | h
    · exact Or.inl h
    · exact Or.inr (Or.inl h)
  · rw [if_neg hemp]
    have hid : ¬ roomID = "" := fun h => hemp (Or.inl h)
    have hname : ¬ roomName = "" := fun h => hemp (Or.inr h)
    cases hl : lookupA roomID s.store with
    | some o =>
        refine ⟨⟨fun _ => ?_, fun _ => rfl⟩, fun h => absurd h hemp,
          fun _ _ => rfl, fun _ => rfl⟩
        simp
    | none =>
        refine ⟨⟨fun h => ?_, fun h => ?_⟩, fun h => absurd h hemp,
          fun _ h => ?_, fun h => ?_⟩
        · exact absurd h (by simp [isErr])
        · rcases h with h | h | h
          · exact absurd h hid
          · exact absurd h hname
          · simp at h
        · simp at h
        · exact absurd h (by simp [isErr])

/-- Claim C6 witness: an empty room id is rejected with the state and
sink untouched. -/
theorem coordinator_createRoom_failure_witness :
    ("" = "" ∨ "Room" = "")
    ∧ (CreateRoom initialCoordState "" "u1" "Room" 0 "t0").1
        = Except.error CoordErr.invalidArgument
    ∧ (CreateRoom initialCoordState "" "u1" "Room" 0 "t0").2
        = (initialCoordState, []) :=
  ⟨Or.inl rfl,
   (coordinator_createRoom_failure_spec initialCoordState "" "u1" "Room" 0 "t0").2.1
     (Or.inl rfl),
   (coordinator_createRoom_failure_spec initialCoordState "" "u1" "Room" 0 "t0").2.2.2
     (by decide)⟩

/-- Claim C7: a successful LeaveRoom enqueues the Leave event and then
the user_left broadcast; when the loop processes them in that order it
first closes the leaving user's sink and removes it, and then attempts
delivery of the broadcast to exactly the remaining members' sinks, so
the leaving user gets no delivery of their own user_left. -/
theorem coordinator_leaveRoom_user_left_ordering (s : CoordState)
    (roomID userID now : String) (obj : RoomObj) (user : User)
    (hobj : lookupA roomID s.store = some obj)
    (huser : lookupA userID obj.room.users = some user) :
    (LeaveRoom s roomID userID now).1 = Except.ok ()
    ∧ queueOf (LeaveRoom s roomID userID now).2 roomID
        = obj.queue ++ [RoomEvent.leave userID, RoomEvent.broadcast (OutMessage.userLeft (NewUserLeftEvent roomID userID user.name now))]
    ∧ (∀ (r : Room) (m : OutMessage) (ch : ChanId),
        lookupA userID r.clients = some ch →
        runEvents r [RoomEvent.leave userID, RoomEvent.broadcast m]
          = ({ r with users := eraseA userID r.users, clients := eraseA userID r.clients },
             ChanOp.closeChan ch :: (eraseA userID r.clients).map (fun kv => ChanOp.deliver kv.2 m),
             false)) := by
  have hcount : GetUserCount obj.room ≠ 0 := by
    have := lookupA_some_length_pos userID user obj.room.users huser
    unfold GetUserCount
    omega
  refine ⟨?_, ?_, ?_⟩
  · simp [LeaveRoom, hobj, huser]
  · simp [LeaveRoom, hobj, huser, queueOf, deleteRoomIfEmpty,
      lookupA_insertA_self, hcount]
  · intro r m ch hch
    simp [runEvents, roomStep, handleLeave, hch, handleBroadcast]

/-- Claim C7 witness: u1 leaves room_1 and the loop processes the two
enqueued events against the processed room state. -/
theorem coordinator_leaveRoom_user_left_witness :
    lookupA "room_1" c1State.store = some c1Obj
    ∧ lookupA "u1" c1Obj.room.users = some { id := "u1", name := "u1" }
    ∧ (LeaveRoom c1State "room_1" "u1" "t1").1 = Except.ok ()
    ∧ queueOf (LeaveRoom c1State "room_1" "u1" "t1").2 "room_1"
        = c1Obj.queue ++ [RoomEvent.leave "u1", RoomEvent.broadcast (OutMessage.userLeft (NewUserLeftEvent "room_1" "u1" "u1" "t1"))] :=
  ⟨by decide, by decide,
   (coordinator_leaveRoom_user_left_ordering c1State "room_1" "u1" "t1" c1Obj
     { id := "u1", name := "u1" } (by decide) (by decide)).1,
   (coordinator_leaveRoom_user_left_ordering c1State "room_1" "u1" "t1" c1Obj
     { id := "u1", name := "u1" } (by decide) (by decide)).2.1⟩

/-- Claim C10: CreateRoom never validates the author id: with a non-empty
room id and room name and an unused room id, creating with the empty
author id succeeds, the stored room records the empty string as its
author, and the queue holds the auto-join of the empty-string user whose
Name is the empty string. -/
theorem coordinator_createRoom_accepts_empty_author (s : CoordState)
    (roomID roomName : String) (send : ChanId) (now : String)
    (hid : roomID ≠ "") (hname : roomName ≠ "")
    (habs : lookupA roomID s.store = none) :
    (CreateRoom s roomID "" roomName send now).1 = Except.ok ()
    ∧ lookupA roomID (CreateRoom s roomID "" roomName send now).2.1.store
        = some { room := NewRoom roomID roomName "", queue := [RoomEvent.join { userID := "", user := { id := "", name := "" }, send := send }], stopped := false }
    ∧ (NewRoom roomID roomName "").authorID = "" := by
  unfold CreateRoom
  rw [if_neg (by simp [hid, hname]), habs]
  exact ⟨rfl, lookupA_insertA_self roomID _ s.store, rfl⟩

/-- Claim C10 witness: creating room_2 with the empty author id. -/
theorem coordinator_createRoom_accepts_empty_author_witness :
    "room_2" ≠ "" ∧ "Room Two" ≠ ""
    ∧ lookupA "room_2" initialCoordState.store = none
    ∧ ((CreateRoom initialCoordState "room_2" "" "Room Two" 2 "t0").1 = Except.ok ()
    ∧ lookupA "room_2" (CreateRoom initialCoordState "room_2" "" "Room Two" 2 "t0").2.1.store
        = some { room := NewRoom "room_2" "Room Two" "", queue := [RoomEvent.join { userID := "", user := { id := "", name := "" }, send := 2 }], stopped := false }
    ∧ (NewRoom "room_2" "Room Two" "").authorID = "") :=
  ⟨by decide, by decide, by decide,
   coordinator_createRoom_accepts_empty_author initialCoordState "room_2" "Room Two"
     2 "t0" (by decide) (by decide) (by decide)⟩

end ChatRoom
